import Mathlib

/-!
Verification development for the SVG sprite generator
`assets/generate_icon_sprite.py`.

The Python program is embedded shallowly:

* Python floats are modelled as exact rationals (`ℚ`).  The program only
  ever derives numbers from decimal literals in SVG attributes and from
  the arithmetic in `normalize_element_to_24x24`; no claim under
  consideration depends on IEEE-754 rounding.
* XML elements (`xml.etree.ElementTree.Element`) are modelled by the
  inductive type `Elem`: a tag, an ordered attribute list (Python `dict`
  preserves insertion order) and a list of child elements.  Text and tail
  nodes are not modelled; no claim depends on them.
* Python exceptions that the program catches per file (`ZeroDivisionError`
  in the normalizer, `ValueError` from `float(...)` in the classifier,
  `xml.etree.ElementTree.ParseError` from parsing) are modelled with
  `Except String`.
* Reading and parsing one input file is summarised by `SvgSource`
  (a parse failure or a parsed root element); a whole input file on disk
  is an `InputFile` (file name plus read outcome).
* Console diagnostics printed by the program are modelled as lists of
  strings (`extractLog`, `fileLog`).
-/

namespace IconSprite

/-! ### Python builtin helpers -/

/-- Models Python `str.split()` with no arguments: split on runs of
whitespace, discarding empty pieces. -/
def pySplitWs (s : String) : List String :=
  (s.split Char.isWhitespace).filter (fun p => p ≠ "")

/-- Decimal digits to a natural number. -/
def digitsToNat (l : List Char) : Nat :=
  l.foldl (fun a c => 10 * a + (c.toNat - 48)) 0

/-- Split a character list into its leading run of decimal digits and
the rest. -/
def takeDigits : List Char → (List Char × List Char)
  | [] => ([], [])
  | c :: rest =>
      if c.isDigit then
        let p := takeDigits rest
        (c :: p.1, p.2)
      else ([], c :: rest)

/-- Models Python `float(s)` on strings for the ordinary decimal forms
`[+-]? digits [. digits]? ([eE] [+-]? digits)?` (with surrounding
whitespace allowed), returning `none` where Python raises `ValueError`.
Exotic accepted spellings (`inf`, `nan`, digit underscores) are not
modelled; no input under consideration uses them. -/
def pyFloat (s : String) : Option ℚ :=
  let cs := s.trim.toList
  let sgncs : ℚ × List Char :=
    match cs with
    | '+' :: r => (1, r)
    | '-' :: r => (-1, r)
    | r => (1, r)
  let sgn := sgncs.1
  let p1 := takeDigits sgncs.2
  let ip := p1.1
  let p2 : List Char × List Char :=
    match p1.2 with
    | '.' :: r => takeDigits r
    | r => ([], r)
  let fp := p2.1
  if ip.isEmpty ∧ fp.isEmpty then none
  else
    let mant : ℚ := (digitsToNat (ip ++ fp) : ℚ) / (10 : ℚ) ^ fp.length
    match p2.2 with
    | [] => some (sgn * mant)
    | 'e' :: r =>
        let esgnr : Int × List Char :=
          match r with
          | '+' :: r2 => (1, r2)
          | '-' :: r2 => (-1, r2)
          | r2 => (1, r2)
        let p3 := takeDigits esgnr.2
        if p3.1.isEmpty ∨ ¬ p3.2.isEmpty then none
        else some (sgn * mant * (10 : ℚ) ^ (esgnr.1 * (digitsToNat p3.1 : Int)))
    | 'E' :: r =>
        let esgnr : Int × List Char :=
          match r with
          | '+' :: r2 => (1, r2)
          | '-' :: r2 => (-1, r2)
          | r2 => (1, r2)
        let p3 := takeDigits esgnr.2
        if p3.1.isEmpty ∨ ¬ p3.2.isEmpty then none
        else some (sgn * mant * (10 : ℚ) ^ (esgnr.1 * (digitsToNat p3.1 : Int)))
    | _ => none

/-- Models Python `int(x)` on floats: truncation toward zero. -/
def pyInt (q : ℚ) : Int :=
  if q ≥ 0 then q.floor else -((-q).floor)

/-- Smallest exponent `k ≤ 18` with `q * 10 ^ k` integral, searched from
`k`.  Used to print a rational with a finite decimal expansion the way
Python prints the corresponding float. -/
def decExpAux (q : ℚ) : Nat → Nat → Option Nat
  | _, 0 => none
  | k, fuel + 1 =>
      if (q * (10 : ℚ) ^ k).den = 1 then some k else decExpAux q (k + 1) fuel

def decExp (q : ℚ) : Option Nat :=
  decExpAux q 0 19

/-- Left-pad a string with zeros to length `k`. -/
def padZeros (s : String) (k : Nat) : String :=
  String.mk (List.replicate (k - s.length) '0') ++ s

/-- Decimal rendering of a nonnegative rational with a finite decimal
expansion. -/
def fmtNonneg (q : ℚ) : String :=
  if q.den = 1 then toString q.num ++ ".0"
  else
    match decExp q with
    | some k =>
        let n := (q * (10 : ℚ) ^ k).num.toNat
        let ipart := n / 10 ^ k
        let fpart := n % 10 ^ k
        toString ipart ++ "." ++ padZeros (toString fpart) k
    | none => toString q.num ++ "/" ++ toString q.den

/-- Models Python `str(x)` on a float `x`: `24.0` for integral values,
shortest decimal form otherwise (`0.5`, `0.05`, ...).  Rationals with no
finite decimal expansion (which a genuine float never is) fall back to a
fraction rendering; no claim depends on that branch. -/
def fmtQ (q : ℚ) : String :=
  if q < 0 then "-" ++ fmtNonneg (-q) else fmtNonneg q

/-! ### The data model -/

/-- A parsed `viewBox`: origin and size, as in `parse_viewbox`. -/
structure ViewBox where
  vx : ℚ
  vy : ℚ
  vw : ℚ
  vh : ℚ
deriving DecidableEq

/-- `parse_viewbox`: split the string on whitespace, convert each piece
with `float`; exactly four values give a viewBox, anything else (too few,
too many, unparseable) falls back to the default `(0, 0, 24, 24)`. -/
def parse_viewbox (viewbox_str : String) : ViewBox :=
  match (pySplitWs viewbox_str).mapM pyFloat with
  | some [x, y, w, h] => ⟨x, y, w, h⟩
  | _ => ⟨0, 0, 24, 24⟩

/-- An XML element: tag, attributes in insertion order, children. -/
inductive Elem where
  | mk (tag : String) (attrs : List (String × String)) (children : List Elem)

def Elem.tag : Elem → String
  | .mk t _ _ => t

def Elem.attrs : Elem → List (String × String)
  | .mk _ a _ => a

def Elem.children : Elem → List Elem
  | .mk _ _ c => c

/-- First binding of a key in an attribute list. -/
def getAttr : List (String × String) → String → Option String
  | [], _ => none
  | kv :: rest, k => if kv.1 = k then some kv.2 else getAttr rest k

/-- Python dict assignment: replace the binding in place if the key is
present, otherwise append it. -/
def setAttr : List (String × String) → String → String → List (String × String)
  | [], k, v => [(k, v)]
  | kv :: rest, k, v => if kv.1 = k then (k, v) :: rest else kv :: setAttr rest k v

/-- `element.get(key)`. -/
def Elem.get (e : Elem) (k : String) : Option String :=
  getAttr e.attrs k

/-- `element.get(key, default)`. -/
def Elem.getD (e : Elem) (k d : String) : String :=
  (e.get k).getD d

/-- `element.set(key, value)`, as a functional update. -/
def Elem.set (e : Elem) (k v : String) : Elem :=
  .mk e.tag (setAttr e.attrs k v) e.children

/-- `tag.split(chr(125))[-1] if chr(125) in tag else tag`: strip an XML
namespace wrapper from a tag name. -/
def stripNs (tag : String) : String :=
  (tag.splitOn ("\x7d")).getLastD tag

/-! ### Background classifier (`is_background_element`) -/

/-- The literal path-data patterns treated as full-viewBox backgrounds:
five formatting variants derived from the viewBox (float formatting, and
`int(...)` formatting for width/height) plus four hard-coded 24x24
defaults. -/
def background_patterns (vb : ViewBox) : List String :=
  [ "M" ++ fmtQ vb.vx ++ " " ++ fmtQ vb.vy ++ "h" ++ fmtQ vb.vw ++ "v" ++ fmtQ vb.vh
      ++ "H" ++ fmtQ vb.vx ++ "z",
    "M" ++ fmtQ vb.vx ++ " " ++ fmtQ vb.vy ++ "h" ++ fmtQ vb.vw ++ "v" ++ fmtQ vb.vh
      ++ "H" ++ fmtQ vb.vx ++ "V" ++ fmtQ vb.vy ++ "z",
    "M" ++ fmtQ vb.vx ++ "," ++ fmtQ vb.vy ++ "h" ++ fmtQ vb.vw ++ "v" ++ fmtQ vb.vh
      ++ "H" ++ fmtQ vb.vx ++ "V" ++ fmtQ vb.vy ++ "z",
    "M" ++ fmtQ vb.vx ++ " " ++ fmtQ vb.vy ++ "h" ++ toString (pyInt vb.vw)
      ++ "v" ++ toString (pyInt vb.vh) ++ "H" ++ fmtQ vb.vx ++ "z",
    "M" ++ fmtQ vb.vx ++ " " ++ fmtQ vb.vy ++ "h" ++ toString (pyInt vb.vw)
      ++ "v" ++ toString (pyInt vb.vh) ++ "H" ++ fmtQ vb.vx ++ "V" ++ fmtQ vb.vy ++ "z",
    "M0 0h24v24H0z",
    "M0 0h24v24H0V0z",
    "M0,0h24v24H0V0z",
    "M.01 0h24v24h-24V0z" ]

/-- `float(element.get(name, 0))`: the attribute parsed as a float, the
number `0` when the attribute is absent, `none` where Python raises
`ValueError`. -/
def getFloatAttr (e : Elem) (name : String) : Option ℚ :=
  match e.get name with
  | none => some 0
  | some s => pyFloat s

/-- The four geometry attributes of a `rect`, parsed in the order the
code reads them (`x`, `y`, `width`, `height`); `none` as soon as one is
present but unparseable. -/
def rectVals (e : Elem) : Option (ℚ × ℚ × ℚ × ℚ) := do
  let x ← getFloatAttr e ("x")
  let y ← getFloatAttr e ("y")
  let w ← getFloatAttr e ("width")
  let h ← getFloatAttr e ("height")
  pure (x, y, w, h)

/-- `is_background_element`: explicit `fill="none"` first; then the
literal path-data patterns for `path` tags; then the covering-rectangle
test for `rect` tags, whose attribute parsing can raise (modelled as
`Except.error`); everything else is kept. -/
def is_background_element (element : Elem) (viewbox : ViewBox) : Except String Bool :=
  let tag := stripNs element.tag
  if element.get ("fill") = some ("none") then .ok true
  else if tag = "path" ∧ (element.getD ("d") ("")).trim ∈ background_patterns viewbox then
    .ok true
  else if tag = "rect" then
    match rectVals element with
    | none => .error ("ValueError: could not convert string to float")
    | some (x, y, w, h) =>
        if x = viewbox.vx ∧ y = viewbox.vy ∧ w ≥ viewbox.vw ∧ h ≥ viewbox.vh then .ok true
        else .ok false
  else .ok false

/-! ### Coordinate normalizer (`normalize_element_to_24x24`) -/

def normScaleX (vb : ViewBox) : ℚ := 24 / vb.vw

def normScaleY (vb : ViewBox) : ℚ := 24 / vb.vh

def normTranslateX (vb : ViewBox) : ℚ := -vb.vx * normScaleX vb

def normTranslateY (vb : ViewBox) : ℚ := -vb.vy * normScaleY vb

/-- The transform components emitted by the normalizer: the translation
(skipped when zero) followed by the scale (skipped when unit). -/
def normTransforms (vb : ViewBox) : List String :=
  (if normTranslateX vb ≠ 0 ∨ normTranslateY vb ≠ 0 then
    ["translate(" ++ fmtQ (normTranslateX vb) ++ "," ++ fmtQ (normTranslateY vb) ++ ")"]
  else []) ++
  (if normScaleX vb ≠ 1 ∨ normScaleY vb ≠ 1 then
    ["scale(" ++ fmtQ (normScaleX vb) ++ "," ++ fmtQ (normScaleY vb) ++ ")"]
  else [])

/-- The affine map denoted, under SVG right-to-left transform semantics,
by the emitted transform string `translate(tx,ty) scale(sx,sy)`:
the scale is applied to the point first, the translation second. -/
def applyNorm (vb : ViewBox) (p : ℚ × ℚ) : ℚ × ℚ :=
  (normScaleX vb * p.1 + normTranslateX vb, normScaleY vb * p.2 + normTranslateY vb)

/-- `normalize_element_to_24x24`: identity (up to the forced fill) on the
default viewBox; otherwise compose the scale/translate transform string,
append it after any pre-existing `transform` attribute, and force the
fill.  A zero-size viewBox raises `ZeroDivisionError` at `24 / vw`,
modelled as `Except.error`. -/
def normalize_element_to_24x24 (element : Elem) (source_viewbox : ViewBox) :
    Except String Elem :=
  if source_viewbox = ⟨0, 0, 24, 24⟩ then
    .ok (element.set ("fill") ("currentColor"))
  else if source_viewbox.vw = 0 ∨ source_viewbox.vh = 0 then
    .error ("ZeroDivisionError: float division by zero")
  else
    let transforms := normTransforms source_viewbox
    let element1 :=
      if transforms ≠ [] then
        let existing_transform := element.getD ("transform") ("")
        let new_transform := String.intercalate (" ") transforms
        if existing_transform ≠ "" then
          element.set ("transform") (existing_transform ++ " " ++ new_transform)
        else
          element.set ("transform") new_transform
      else element
    .ok (element1.set ("fill") ("currentColor"))

/-! ### Element collector (`collect_elements` inside `extract_icon_elements`) -/

def drawable_tags : List String :=
  ["path", "rect", "circle", "ellipse", "line", "polyline", "polygon"]

/-- The recursive collector: drawable elements are classified and, when
retained, normalized and appended; non-drawable elements are recursed
into.  The first uncaught exception aborts the walk (it propagates to the
handler in `extract_icon_elements`). -/
def collectList (vb : ViewBox) : List Elem → Except String (List Elem)
  | [] => .ok []
  | .mk t a cs :: rest =>
      if stripNs t ∈ drawable_tags then
        match is_background_element (.mk t a cs) vb with
        | .error msg => .error msg
        | .ok true => collectList vb rest
        | .ok false =>
            match normalize_element_to_24x24 (.mk t a cs) vb with
            | .error msg => .error msg
            | .ok n =>
                match collectList vb rest with
                | .error msg => .error msg
                | .ok l => .ok (n :: l)
      else
        match collectList vb cs with
        | .error msg => .error msg
        | .ok l1 =>
            match collectList vb rest with
            | .error msg => .error msg
            | .ok l2 => .ok (l1 ++ l2)

/-- Read and parse outcome of one SVG file: malformed XML or a parsed
root element. -/
inductive SvgSource where
  | malformed (msg : String)
  | parsed (root : Elem)

/-- The viewBox the extractor works with:
`parse_viewbox` applied to the root viewBox attribute, default "0 0 24 24". -/
def docViewbox (root : Elem) : ViewBox :=
  parse_viewbox (root.getD ("viewBox") ("0 0 24 24"))

/-- `extract_icon_elements`: walk the children of the root; both a parse error
and any per-element exception are caught here and yield the empty list. -/
def extract_icon_elements (src : SvgSource) : List Elem :=
  match src with
  | .malformed _ => []
  | .parsed root =>
      match collectList (docViewbox root) root.children with
      | .ok l => l
      | .error _ => []

/-- The diagnostics printed by `extract_icon_elements`. -/
def extractLog (src : SvgSource) : List String :=
  match src with
  | .malformed msg => ["   ❌ XML Parse Error: " ++ msg]
  | .parsed root =>
      match collectList (docViewbox root) root.children with
      | .ok _ => []
      | .error msg => ["   ❌ Unexpected error: " ++ msg]

/-! ### Serialization and sprite assembly (`generate_sprite`) -/

def attrsString : List (String × String) → String
  | [] => ""
  | kv :: rest => " " ++ kv.1 ++ "=\"" ++ kv.2 ++ "\"" ++ attrsString rest

mutual

/-- Models `xml.etree.ElementTree.tostring` with unicode encoding
on the modelled fragment (no text/tail nodes, attribute values kept
verbatim). -/
def Elem.tostring : Elem → String
  | .mk t a [] => "<" ++ t ++ attrsString a ++ " />"
  | .mk t a (c :: cs) =>
      "<" ++ t ++ attrsString a ++ ">" ++ tostringList (c :: cs) ++ "</" ++ t ++ ">"

def tostringList : List Elem → String
  | [] => ""
  | c :: cs => Elem.tostring c ++ tostringList cs

end

/-- `Path.stem` for the names produced by the `*.svg` glob: the file name
without its `.svg` suffix. -/
def stemOf (name : String) : String :=
  if name.endsWith (".svg") then name.dropRight 4 else name

/-- One input file: its file name and the outcome of reading then parsing
it.  `Except.error` models an exception while opening or reading the
file, caught by the per-file handler in the main loop. -/
structure InputFile where
  name : String
  content : Except String SvgSource

/-- The retained (non-background, normalized) elements a file
contributes: none on a read failure, otherwise whatever the extractor
returns. -/
def retainedOf (f : InputFile) : List Elem :=
  match f.content with
  | .error _ => []
  | .ok src => extract_icon_elements src

/-- The symbol block emitted for one processed file: opening tag with the
file stem as id and the fixed viewBox, one line per serialized element,
closing tag. -/
def symbolLines (stem : String) (elements : List Elem) : List String :=
  ("  <symbol id=\"" ++ stem ++ "\" viewBox=\"0 0 24 24\">")
    :: elements.map (fun e => "    " ++ e.tostring)
    ++ ["  </symbol>"]

/-- The sprite lines contributed by one file: a symbol block when it has
retained elements, nothing on a failure or when no element is retained. -/
def fileLines (f : InputFile) : List String :=
  match f.content with
  | .error _ => []
  | .ok src =>
      let elements := extract_icon_elements src
      if elements.isEmpty then [] else symbolLines (stemOf f.name) elements

/-- The per-file console diagnostics of the main loop (including those
printed inside the extractor). -/
def fileLog (f : InputFile) : List String :=
  match f.content with
  | .error msg => ["   ❌ Error processing " ++ stemOf f.name ++ ": " ++ msg]
  | .ok src =>
      extractLog src ++
        (if (extract_icon_elements src).isEmpty then
          ["   ⚠ Skipped " ++ stemOf f.name ++ " (no valid elements found)"]
        else ["   ✓ " ++ stemOf f.name])

/-- A file on which processing fails with a diagnostic: a read failure,
malformed XML, or an uncaught per-element exception in the collector. -/
def fileError (f : InputFile) : Bool :=
  match f.content with
  | .error _ => true
  | .ok (.malformed _) => true
  | .ok (.parsed root) =>
      match collectList (docViewbox root) root.children with
      | .error _ => true
      | .ok _ => false

def fileLe (f g : InputFile) : Prop :=
  f.name ≤ g.name

instance : DecidableRel fileLe :=
  fun f g => inferInstanceAs (Decidable (f.name ≤ g.name))

instance : IsTotal InputFile fileLe :=
  ⟨fun a b => le_total a.name b.name⟩

instance : IsTrans InputFile fileLe :=
  ⟨fun _ _ _ h1 h2 => le_trans h1 h2⟩

/-- Models `sorted(svg_files)`: Python sorts `Path`s of one directory by
file name, with a stable sort; every stable sort computes the same list,
here realised by insertion sort. -/
def sortFiles (files : List InputFile) : List InputFile :=
  List.insertionSort fileLe files

/-- The per-file loop of `generate_sprite`, appending the symbol lines of each
file in order. -/
def buildLines : List InputFile → List String
  | [] => []
  | f :: rest => fileLines f ++ buildLines rest

def spriteHeader : String :=
  "<svg xmlns=\"http://www.w3.org/2000/svg\" style=\"display: none;\">"

/-- The full `sprite_content` line list: header, the contributions of the sorted files, closing tag. -/
def spriteLines (files : List InputFile) : List String :=
  spriteHeader :: (buildLines (sortFiles files) ++ ["</svg>"])

/-- One line of `optimize_sprite_content`: drop blank lines, strip, and
re-indent by tag prefix. -/
def optimize_line (line : String) : Option String :=
  let stripped := line.trim
  if stripped = "" then none
  else if stripped.startsWith ("<symbol") then some ("  " ++ stripped)
  else if stripped.startsWith ("<path") then some ("    " ++ stripped)
  else if stripped.startsWith ("</symbol>") then some ("  " ++ stripped)
  else some stripped

def optimize_sprite_content (content : String) : String :=
  String.intercalate ("\n") ((content.splitOn ("\n")).filterMap optimize_line)

/-- `generate_sprite`, from discovery to the written content: `none` when
the input directory is missing or holds no SVG files (setup errors abort
the run before any processing and nothing is written), otherwise the
optimized sprite text. -/
def generate_sprite (dirExists : Bool) (files : List InputFile) : Option String :=
  if !dirExists then none
  else if files.isEmpty then none
  else some (optimize_sprite_content (String.intercalate ("\n") (spriteLines files)))

/-- The `transform` attribute of a successfully normalized element. -/
def transformOf (r : Except String Elem) : Option String :=
  match r with
  | .ok n => n.get ("transform")
  | .error _ => none

/-! ### Helper lemmas -/

theorem getAttr_setAttr_self (l : List (String × String)) (k v : String) :
    getAttr (setAttr l k v) k = some v := by
  induction l with
  | nil => simp [setAttr, getAttr]
  | cons kv rest ih =>
      by_cases h : kv.1 = k
      · simp [setAttr, getAttr, h]
      · simp [setAttr, getAttr, h, ih]

theorem getAttr_setAttr_ne (l : List (String × String)) (k v k' : String) (h : k' ≠ k) :
    getAttr (setAttr l k v) k' = getAttr l k' := by
  induction l with
  | nil => simp [setAttr, getAttr, Ne.symm h]
  | cons kv rest ih =>
      by_cases h1 : kv.1 = k
      · subst h1
        simp [setAttr, getAttr, Ne.symm h]
      · simp only [setAttr, if_neg h1]
        by_cases h2 : kv.1 = k'
        · simp [getAttr, h2]
        · simp [getAttr, h2, ih]

theorem Elem.get_set (e : Elem) (k v k' : String) :
    (e.set k v).get k' = if k' = k then some v else e.get k' := by
  by_cases h : k' = k
  · subst h
    simp [Elem.set, Elem.get, Elem.attrs, getAttr_setAttr_self]
  · cases e with
    | mk t a c => simp [Elem.set, Elem.get, Elem.attrs, getAttr_setAttr_ne _ _ _ _ h, h]

theorem Elem.tag_set (e : Elem) (k v : String) : (e.set k v).tag = e.tag := by
  cases e with
  | mk t a c => rfl

theorem Elem.children_set (e : Elem) (k v : String) : (e.set k v).children = e.children := by
  cases e with
  | mk t a c => rfl

theorem fileError_fileLines (f : InputFile) (h : fileError f = true) : fileLines f = [] := by
  cases hc : f.content with
  | error msg => simp [fileLines, hc]
  | ok src =>
      cases src with
      | malformed msg => simp [fileLines, hc, extract_icon_elements]
      | parsed root =>
          cases hcol : collectList (docViewbox root) root.children with
          | error msg => simp [fileLines, hc, extract_icon_elements, hcol]
          | ok l => simp [fileError, hc, hcol] at h

theorem buildLines_filter_of_empty (p : InputFile → Bool) (l : List InputFile)
    (hp : ∀ f, p f = false → fileLines f = []) :
    buildLines l = buildLines (l.filter p) := by
  induction l with
  | nil => rfl
  | cons f rest ih =>
      cases hf : p f with
      | false => simp [buildLines, List.filter, hf, hp f hf, ih]
      | true => simp [buildLines, List.filter, hf, ih]

theorem buildLines_flatMap (l : List InputFile) :
    buildLines l = (l.filter (fun f => !(retainedOf f).isEmpty)).flatMap
      (fun f => symbolLines (stemOf f.name) (retainedOf f)) := by
  induction l with
  | nil => rfl
  | cons f rest ih =>
      cases hc : f.content with
      | error msg =>
          simp [buildLines, fileLines, hc, retainedOf, List.filter, ih]
      | ok src =>
          by_cases he : (extract_icon_elements src).isEmpty
          · simp [buildLines, fileLines, hc, retainedOf, List.filter, he, ih]
          · simp [buildLines, fileLines, hc, retainedOf, List.filter, he, ih]

theorem collectList_append (vb : ViewBox) (l₁ l₂ : List Elem) :
    collectList vb (l₁ ++ l₂) =
      (collectList vb l₁).bind (fun a => (collectList vb l₂).map (fun b => a ++ b)) := by
  induction l₁ with
  | nil =>
      cases h : collectList vb l₂ <;> simp [collectList, h, Except.bind, Except.map]
  | cons e rest ih =>
      cases e with
      | mk t a cs =>
          by_cases hd : stripNs t ∈ drawable_tags
          · simp only [List.cons_append, collectList, if_pos hd]
            cases hbg : is_background_element (.mk t a cs) vb with
            | error msg => simp [Except.bind]
            | ok b =>
                cases b with
                | true => exact ih
                | false =>
                    cases hn : normalize_element_to_24x24 (.mk t a cs) vb with
                    | error msg => simp [Except.bind]
                    | ok n =>
                        rw [ih]
                        cases h1 : collectList vb rest <;>
                          cases h2 : collectList vb l₂ <;>
                            simp [Except.bind, Except.map]
          · simp only [List.cons_append, collectList, if_neg hd]
            cases hcs : collectList vb cs with
            | error msg => simp [Except.bind]
            | ok l0 =>
                rw [ih]
                cases h1 : collectList vb rest <;>
                  cases h2 : collectList vb l₂ <;>
                    simp [Except.bind, Except.map, List.append_assoc]

theorem sorted_nodup_perm_eq :
    ∀ l₁ l₂ : List InputFile, l₁.Perm l₂ → l₁.Sorted fileLe → l₂.Sorted fileLe →
      (l₁.map InputFile.name).Nodup → l₁ = l₂ := by
  intro l₁
  induction l₁ with
  | nil =>
      intro l₂ hp _ _ _
      exact (hp.symm.eq_nil).symm
  | cons f t ih =>
      intro l₂ hp hs₁ hs₂ hnd
      cases l₂ with
      | nil => exact absurd hp.eq_nil (by simp)
      | cons g t₂ =>
          have hnd' : (∀ x ∈ t, ¬x.name = f.name) ∧ (List.map InputFile.name t).Nodup := by
            simpa using hnd
          have hf : f = g := by
            have hfmem : f ∈ g :: t₂ := hp.mem_iff.mp (by simp)
            rcases List.mem_cons.mp hfmem with h | hft₂
            · exact h
            · have hgmem : g ∈ f :: t := hp.symm.mem_iff.mp (by simp)
              rcases List.mem_cons.mp hgmem with h | hgt
              · exact h.symm
              · have h1 : fileLe f g := (List.pairwise_cons.mp hs₁).1 g hgt
                have h2 : fileLe g f := (List.pairwise_cons.mp hs₂).1 f hft₂
                have hnames : g.name = f.name := le_antisymm h2 h1
                exact absurd hnames (hnd'.1 g hgt)
          subst hf
          have htail : t.Perm t₂ := hp.cons_inv
          have hrec := ih t₂ htail (List.pairwise_cons.mp hs₁).2 (List.pairwise_cons.mp hs₂).2
            hnd'.2
          rw [hrec]

theorem normalize_mk_cases (t : String) (a : List (String × String)) (cs cs' : List Elem)
    (vb : ViewBox) :
    (∃ msg, normalize_element_to_24x24 (Elem.mk t a cs) vb = Except.error msg ∧
            normalize_element_to_24x24 (Elem.mk t a cs') vb = Except.error msg) ∨
    (∃ a2, normalize_element_to_24x24 (Elem.mk t a cs) vb = Except.ok (Elem.mk t a2 cs) ∧
           normalize_element_to_24x24 (Elem.mk t a cs') vb = Except.ok (Elem.mk t a2 cs')) := by
  unfold normalize_element_to_24x24
  by_cases h1 : vb = ⟨0, 0, 24, 24⟩
  · rw [if_pos h1, if_pos h1]
    exact Or.inr ⟨_, rfl, rfl⟩
  · rw [if_neg h1, if_neg h1]
    by_cases h2 : vb.vw = 0 ∨ vb.vh = 0
    · rw [if_pos h2, if_pos h2]
      exact Or.inl ⟨_, rfl, rfl⟩
    · rw [if_neg h2, if_neg h2]
      by_cases h3 : normTransforms vb ≠ []
      · simp only [if_pos h3]
        by_cases h4 : Elem.getD (Elem.mk t a cs) ("transform") ("") ≠ ""
        · have h4' : Elem.getD (Elem.mk t a cs') ("transform") ("") ≠ "" := h4
          simp only [if_pos h4, if_pos h4']
          exact Or.inr ⟨_, rfl, rfl⟩
        · have h4' : ¬ Elem.getD (Elem.mk t a cs') ("transform") ("") ≠ "" := h4
          simp only [if_neg h4, if_neg h4']
          exact Or.inr ⟨_, rfl, rfl⟩
      · simp only [if_neg h3]
        exact Or.inr ⟨_, rfl, rfl⟩

/-! ### Claim theorems -/

/-- Claim C1.  For every element of a source file whose viewBox is not
the default `(0, 0, 24, 24)` and has nonzero width and height, the
normalizer succeeds, computes `scale_x = 24 / w`, `scale_y = 24 / h`,
`translate_x = -x * scale_x`, `translate_y = -y * scale_y`, and the
emitted transform — the scale applied to the point first, then the
translation, per SVG right-to-left semantics — maps the top-left corner `(x, y)` of the viewBox to `(0, 0)` and its bottom-right corner
`(x + w, y + h)` to `(24, 24)`. -/
theorem normalizer_maps_corners (e : Elem) (vb : ViewBox)
    (h24 : vb ≠ ⟨0, 0, 24, 24⟩) (hw : vb.vw ≠ 0) (hh : vb.vh ≠ 0) :
    (∃ n, normalize_element_to_24x24 e vb = Except.ok n) ∧
    normScaleX vb = 24 / vb.vw ∧ normScaleY vb = 24 / vb.vh ∧
    normTranslateX vb = -vb.vx * normScaleX vb ∧
    normTranslateY vb = -vb.vy * normScaleY vb ∧
    applyNorm vb (vb.vx, vb.vy) = (0, 0) ∧
    applyNorm vb (vb.vx + vb.vw, vb.vy + vb.vh) = (24, 24) := by
  refine ⟨?_, rfl, rfl, rfl, rfl, ?_, ?_⟩
  · unfold normalize_element_to_24x24
    rw [if_neg h24, if_neg (by push_neg; exact ⟨hw, hh⟩)]
    exact ⟨_, rfl⟩
  · simp only [applyNorm, normScaleX, normScaleY, normTranslateX, normTranslateY]
    refine Prod.ext ?_ ?_ <;> ring
  · simp only [applyNorm, normScaleX, normScaleY, normTranslateX, normTranslateY]
    refine Prod.ext ?_ ?_
    · show 24 / vb.vw * (vb.vx + vb.vw) + -vb.vx * (24 / vb.vw) = 24
      field_simp
      ring
    · show 24 / vb.vh * (vb.vy + vb.vh) + -vb.vy * (24 / vb.vh) = 24
      field_simp
      ring

def vb48 : ViewBox := ⟨0, 0, 48, 48⟩

def plainPath : Elem := .mk ("path") [("d", "M10 10h28v28z")] []

theorem normalizer_maps_corners_witness :
    (∃ n, normalize_element_to_24x24 plainPath vb48 = Except.ok n) ∧
    normScaleX vb48 = 24 / vb48.vw ∧ normScaleY vb48 = 24 / vb48.vh ∧
    normTranslateX vb48 = -vb48.vx * normScaleX vb48 ∧
    normTranslateY vb48 = -vb48.vy * normScaleY vb48 ∧
    applyNorm vb48 (vb48.vx, vb48.vy) = (0, 0) ∧
    applyNorm vb48 (vb48.vx + vb48.vw, vb48.vy + vb48.vh) = (24, 24) :=
  normalizer_maps_corners plainPath vb48 (by with_unfolding_all decide)
    (by with_unfolding_all decide) (by with_unfolding_all decide)

/-- Claim C5.  For every element, when the source viewBox is exactly
`(0, 0, 24, 24)` normalization adds no transform attribute and leaves the
element unchanged — same tag, same children, every attribute other than
`fill` untouched — except that `fill` is set to `currentColor`. -/
theorem norm_default_keeps_element (e : Elem) :
    normalize_element_to_24x24 e ⟨0, 0, 24, 24⟩ =
      Except.ok (e.set ("fill") ("currentColor")) ∧
    (e.set ("fill") ("currentColor")).tag = e.tag ∧
    (e.set ("fill") ("currentColor")).children = e.children ∧
    ∀ k : String, (e.set ("fill") ("currentColor")).get k =
      if k = "fill" then some ("currentColor") else e.get k := by
  refine ⟨?_, Elem.tag_set e _ _, Elem.children_set e _ _, fun k => Elem.get_set e _ _ k⟩
  unfold normalize_element_to_24x24
  rw [if_pos rfl]

/-- Claim C7.  When the input directory does not exist, or it contains no
SVG files, the run aborts before processing any file and no output
content is produced. -/
theorem setup_error_aborts (files : List InputFile) :
    generate_sprite false files = none ∧ generate_sprite true [] = none := by
  constructor <;> simp [generate_sprite]

/-- Claim C2.  For every run over a nonempty set of input files, the
output is produced and its line list consists of the header, then —
for exactly those files, in sorted-file-name order, that yield at least
one retained element — one symbol block per file with id equal to the
file stem and viewBox fixed to `0 0 24 24`, containing exactly that
retained elements of that file in collection order, then the closing tag;
files yielding zero retained elements contribute no symbol. -/
theorem sprite_assembly (files : List InputFile) (hne : files ≠ []) :
    generate_sprite true files =
      some (optimize_sprite_content (String.intercalate ("\n") (spriteLines files))) ∧
    (sortFiles files).Perm files ∧
    (sortFiles files).Sorted fileLe ∧
    spriteLines files =
      spriteHeader ::
        (((sortFiles files).filter (fun f => !(retainedOf f).isEmpty)).flatMap
          (fun f => symbolLines (stemOf f.name) (retainedOf f)) ++ ["</svg>"]) := by
  refine ⟨?_, List.perm_insertionSort fileLe files, List.sorted_insertionSort fileLe files, ?_⟩
  · cases files with
    | nil => exact absurd rfl hne
    | cons f rest => simp [generate_sprite]
  · rw [spriteLines, buildLines_flatMap]

def bgRect48 : Elem := .mk ("rect") [("width", "48"), ("height", "48")] []

def homeRoot : Elem := .mk ("svg") [("viewBox", "0 0 48 48")] [bgRect48, plainPath]

def homeFile : InputFile := ⟨"home.svg", .ok (.parsed homeRoot)⟩

theorem sprite_assembly_witness :
    generate_sprite true [homeFile] =
      some (optimize_sprite_content (String.intercalate ("\n") (spriteLines [homeFile]))) ∧
    (sortFiles [homeFile]).Perm [homeFile] ∧
    (sortFiles [homeFile]).Sorted fileLe ∧
    spriteLines [homeFile] =
      spriteHeader ::
        (((sortFiles [homeFile]).filter (fun f => !(retainedOf f).isEmpty)).flatMap
          (fun f => symbolLines (stemOf f.name) (retainedOf f)) ++ ["</svg>"]) :=
  sprite_assembly [homeFile] (List.cons_ne_nil _ _)

def rotElem : Elem := .mk ("path") [("d", "M1 1h2z"), ("transform", "rotate(45)")] []

/-- Claim C3, counterexample.  At viewBox `(0, 0, 48, 48)` and an element
with the pre-existing transform `rotate(45)`, the normalizer emits
`rotate(45) scale(0.5,0.5)` — the normalization component standing after
the pre-existing transform — and not the prepended form
`scale(0.5,0.5) rotate(45)` that the claim describes. -/
theorem transform_append_cex :
    transformOf (normalize_element_to_24x24 rotElem vb48) =
      some ("rotate(45) scale(0.5,0.5)") ∧
    transformOf (normalize_element_to_24x24 rotElem vb48) ≠
      some ("scale(0.5,0.5) rotate(45)") := by
  constructor
  · with_unfolding_all rfl
  · with_unfolding_all decide

/-- Claim C3 as amended.  For every element with a pre-existing non-empty
transform attribute and a non-identity normalization, the composed
normalization transform string (translation component then scale
component, each skipped when it is the identity) is appended AFTER the
pre-existing transform attribute, separated by whitespace; hence, per SVG
right-to-left semantics, the normalization transform is applied to the
point first and the pre-existing transform second. -/
theorem transform_append_order (e : Elem) (vb : ViewBox) (t : String)
    (h24 : vb ≠ ⟨0, 0, 24, 24⟩) (hw : vb.vw ≠ 0) (hh : vb.vh ≠ 0)
    (ht : e.get ("transform") = some t) (htne : t ≠ "")
    (hcomp : normTransforms vb ≠ []) :
    normalize_element_to_24x24 e vb =
      Except.ok ((e.set ("transform")
          (t ++ " " ++ String.intercalate (" ") (normTransforms vb))).set
        ("fill") ("currentColor")) ∧
    transformOf (normalize_element_to_24x24 e vb) =
      some (t ++ " " ++ String.intercalate (" ") (normTransforms vb)) := by
  have hget : Elem.getD e ("transform") ("") = t := by
    rw [Elem.getD, ht]
    rfl
  have h1 : normalize_element_to_24x24 e vb =
      Except.ok ((e.set ("transform")
          (t ++ " " ++ String.intercalate (" ") (normTransforms vb))).set
        ("fill") ("currentColor")) := by
    unfold normalize_element_to_24x24
    rw [if_neg h24, if_neg (by push_neg; exact ⟨hw, hh⟩)]
    simp only [if_pos hcomp, hget, if_pos htne]
  refine ⟨h1, ?_⟩
  simp only [h1, transformOf]
  rw [Elem.get_set, if_neg (by decide), Elem.get_set, if_pos rfl]

theorem transform_append_order_witness :
    normalize_element_to_24x24 rotElem vb48 =
      Except.ok ((rotElem.set ("transform")
          ("rotate(45)" ++ " " ++ String.intercalate (" ") (normTransforms vb48))).set
        ("fill") ("currentColor")) ∧
    transformOf (normalize_element_to_24x24 rotElem vb48) =
      some ("rotate(45)" ++ " " ++ String.intercalate (" ") (normTransforms vb48)) :=
  transform_append_order rotElem vb48 ("rotate(45)")
    (by with_unfolding_all decide) (by with_unfolding_all decide)
    (by with_unfolding_all decide) (by with_unfolding_all rfl)
    (by decide) (by with_unfolding_all decide)

def fillNoneRule (e : Elem) : Prop :=
  e.get ("fill") = some ("none")

def pathPatternRule (e : Elem) (vb : ViewBox) : Prop :=
  stripNs e.tag = "path" ∧ (e.getD ("d") ("")).trim ∈ background_patterns vb

def rectCoverRule (e : Elem) (vb : ViewBox) : Prop :=
  stripNs e.tag = "rect" ∧ ∃ x y w h, rectVals e = some (x, y, w, h) ∧
    x = vb.vx ∧ y = vb.vy ∧ vb.vw ≤ w ∧ vb.vh ≤ h

/-- Claim C4.  Whenever the background classifier returns (does not
raise), it returns `true` exactly for the elements matched by one of the
three rules: (a) an explicit `fill="none"` attribute; (b) a `path` whose
trimmed `d` attribute is string-equal to one of the fixed literal
full-viewBox background patterns (including the hard-coded 24x24 default
patterns); (c) a `rect` whose `x`, `y` equal the viewBox origin and whose
width and height are at least those of the viewBox.  Every element matched by
none of them is retained. -/
theorem classifier_exactly_rules (e : Elem) (vb : ViewBox) (b : Bool)
    (h : is_background_element e vb = Except.ok b) :
    b = true ↔ fillNoneRule e ∨ pathPatternRule e vb ∨ rectCoverRule e vb := by
  unfold is_background_element at h
  by_cases h1 : e.get ("fill") = some ("none")
  · rw [if_pos h1] at h
    cases h
    simp [fillNoneRule, h1]
  · rw [if_neg h1] at h
    by_cases h2 : stripNs e.tag = "path" ∧ (e.getD ("d") ("")).trim ∈ background_patterns vb
    · rw [if_pos h2] at h
      cases h
      simp [pathPatternRule, h2]
    · rw [if_neg h2] at h
      by_cases h3 : stripNs e.tag = "rect"
      · rw [if_pos h3] at h
        cases hr : rectVals e with
        | none => rw [hr] at h; cases h
        | some v =>
            obtain ⟨x, y, w, hgt⟩ := v
            rw [hr] at h
            dsimp only at h
            by_cases h4 : x = vb.vx ∧ y = vb.vy ∧ w ≥ vb.vw ∧ hgt ≥ vb.vh
            · rw [if_pos h4] at h
              cases h
              constructor
              · intro _
                exact Or.inr (Or.inr ⟨h3, x, y, w, hgt, hr, h4.1, h4.2.1, h4.2.2.1, h4.2.2.2⟩)
              · intro _
                rfl
            · rw [if_neg h4] at h
              cases h
              constructor
              · intro hb
                cases hb
              · rintro (hc | hc | hc)
                · exact absurd hc h1
                · exact absurd (h3.symm.trans hc.1) (by decide)
                · obtain ⟨_, x', y', w', h', hr', hx, hy, hw, hh⟩ := hc
                  rw [hr] at hr'
                  simp only [Option.some.injEq, Prod.mk.injEq] at hr'
                  obtain ⟨rfl, rfl, rfl, rfl⟩ := hr'
                  exact absurd ⟨hx, hy, hw, hh⟩ h4
      · rw [if_neg h3] at h
        cases h
        constructor
        · intro hb
          cases hb
        · rintro (hc | hc | hc)
          · exact absurd hc h1
          · exact absurd hc h2
          · exact absurd hc.1 h3

def coverRect : Elem := .mk ("rect") [("width", "24"), ("height", "24")] []

def vb24 : ViewBox := ⟨0, 0, 24, 24⟩

theorem classifier_exactly_rules_witness :
    true = true ↔ fillNoneRule coverRect ∨ pathPatternRule coverRect vb24 ∨
      rectCoverRule coverRect vb24 :=
  classifier_exactly_rules coverRect vb24 true (by with_unfolding_all rfl)

/-- Claim C6.  Every input file whose processing fails — an XML parse
error, a read failure, or any per-element exception such as the
zero-size-viewBox division error — produces a diagnostic, contributes no
symbol to the output (even elements collected before the failure are
discarded), and the remaining files are processed as if the failing file
were absent. -/
theorem per_file_error_skipped (files : List InputFile) (f : InputFile)
    (_hmem : f ∈ files) (herr : fileError f = true) :
    fileLines f = [] ∧ fileLog f ≠ [] ∧
    spriteLines files =
      spriteHeader ::
        (buildLines ((sortFiles files).filter (fun g => !fileError g)) ++ ["</svg>"]) := by
  refine ⟨fileError_fileLines f herr, ?_, ?_⟩
  · cases hc : f.content with
    | error msg => simp [fileLog, hc]
    | ok src =>
        by_cases he : (extract_icon_elements src).isEmpty <;> simp [fileLog, hc, he]
  · rw [spriteLines,
      buildLines_filter_of_empty (fun g => !fileError g) (sortFiles files)
        (fun g hg => fileError_fileLines g (by simpa using hg))]

def badFile : InputFile := ⟨"broken.svg", .ok (.malformed ("not well-formed"))⟩

theorem per_file_error_skipped_witness :
    fileLines badFile = [] ∧ fileLog badFile ≠ [] ∧
    spriteLines [badFile] =
      spriteHeader ::
        (buildLines ((sortFiles [badFile]).filter (fun g => !fileError g)) ++ ["</svg>"]) :=
  per_file_error_skipped [badFile] badFile (by simp) (by rfl)

/-- Claim C8.  The transform is deterministic: the output depends only on
the set of discovered input files (their names and contents), not on the
order the directory enumeration yields them — together with the purity of
the model this gives byte-identical reruns on an unchanged input
directory. -/
theorem run_deterministic (d : Bool) (files₁ files₂ : List InputFile)
    (hperm : files₁.Perm files₂) (hnd : (files₁.map InputFile.name).Nodup) :
    generate_sprite d files₁ = generate_sprite d files₂ := by
  have hsort : sortFiles files₁ = sortFiles files₂ := by
    refine sorted_nodup_perm_eq _ _ ?_ (List.sorted_insertionSort fileLe files₁)
      (List.sorted_insertionSort fileLe files₂) ?_
    · exact (List.perm_insertionSort fileLe files₁).trans
        (hperm.trans (List.perm_insertionSort fileLe files₂).symm)
    · exact ((List.perm_insertionSort fileLe files₁).map InputFile.name).symm.nodup hnd
  have hemp : files₁.isEmpty = files₂.isEmpty := by
    have hlen := hperm.length_eq
    cases files₁ with
    | nil =>
        cases files₂ with
        | nil => rfl
        | cons g t => simp at hlen
    | cons f t =>
        cases files₂ with
        | nil => simp at hlen
        | cons g t₂ => rfl
  unfold generate_sprite
  rw [hemp, spriteLines, spriteLines, hsort]

def fileA : InputFile := ⟨"a.svg", .error ("io error")⟩

def fileB : InputFile := ⟨"b.svg", .error ("io error")⟩

theorem run_deterministic_witness :
    generate_sprite true [fileA, fileB] = generate_sprite true [fileB, fileA] :=
  run_deterministic true [fileA, fileB] [fileB, fileA]
    (List.Perm.swap fileB fileA []) (by with_unfolding_all decide)

/-- Claim C9.  The collector never recurses into an element whose
namespace-stripped tag is a recognized drawable shape: its classification
ignores its descendants, the number of collected entries is unchanged by
replacing its subtree wholesale, and only non-drawable elements are
recursed into (the collection results of their subtrees are spliced before those of the remaining siblings). -/
theorem drawable_subtree_not_entered (vb : ViewBox) (t : String)
    (a : List (String × String)) (cs cs' rest : List Elem)
    (hdraw : stripNs t ∈ drawable_tags) :
    is_background_element (Elem.mk t a cs) vb = is_background_element (Elem.mk t a cs') vb ∧
    (collectList vb (Elem.mk t a cs :: rest)).map List.length =
      (collectList vb (Elem.mk t a cs' :: rest)).map List.length ∧
    (∀ t2 : String, stripNs t2 ∉ drawable_tags →
      collectList vb (Elem.mk t2 a cs :: rest) =
        (collectList vb cs).bind
          (fun l1 => (collectList vb rest).map (fun l2 => l1 ++ l2))) := by
  have hbg : is_background_element (Elem.mk t a cs) vb =
      is_background_element (Elem.mk t a cs') vb := rfl
  refine ⟨hbg, ?_, ?_⟩
  · simp only [collectList, if_pos hdraw]
    cases hb : is_background_element (Elem.mk t a cs) vb with
    | error msg => rw [hbg] at hb; rw [hb]
    | ok b =>
        have hb' := hb
        rw [hbg] at hb'
        rw [hb']
        cases b with
        | true => rfl
        | false =>
            rcases normalize_mk_cases t a cs cs' vb with ⟨msg, hn, hn'⟩ | ⟨a2, hn, hn'⟩
            · rw [hn, hn']
            · rw [hn, hn']
              cases hrest : collectList vb rest with
              | error msg => rfl
              | ok l => simp [Except.map]
  · intro t2 hnd2
    simp only [collectList, if_neg hnd2]
    cases h1 : collectList vb cs <;> cases h2 : collectList vb rest <;>
      simp [Except.bind, Except.map]

theorem drawable_subtree_not_entered_witness :
    ((collectList vb24 (Elem.mk ("path") [("d", "M2 2h4z")] [plainPath] :: [])).map
        List.length =
      (collectList vb24 (Elem.mk ("path") [("d", "M2 2h4z")] [] :: [])).map
        List.length) ∧
    collectList vb24 (Elem.mk ("g") [("d", "M2 2h4z")] [plainPath] :: []) =
      (collectList vb24 [plainPath]).bind
        (fun l1 => (collectList vb24 []).map (fun l2 => l1 ++ l2)) :=
  ⟨(drawable_subtree_not_entered vb24 ("path") [("d", "M2 2h4z")] [plainPath] [] []
      (by with_unfolding_all decide)).2.1,
    (drawable_subtree_not_entered vb24 ("path") [("d", "M2 2h4z")] [plainPath] [] []
      (by with_unfolding_all decide)).2.2 ("g") (by with_unfolding_all decide)⟩

/-- Claim C10.  A `rect` element not already filtered by `fill="none"`
whose geometry attribute is present but unparseable makes the classifier
raise; the error is caught at file scope: the whole file yields no symbol
(the valid elements collected before it are discarded too) and the
remaining files are processed as if the failing file were absent. -/
theorem bad_rect_attr_aborts_file (name : String) (root : Elem) (pre post : List Elem)
    (e : Elem) (l0 : List Elem)
    (hchild : root.children = pre ++ e :: post)
    (hrect : stripNs e.tag = "rect")
    (hfill : ¬ e.get ("fill") = some ("none"))
    (hbad : rectVals e = none)
    (hpre : collectList (docViewbox root) pre = Except.ok l0) :
    (∃ msg, is_background_element e (docViewbox root) = Except.error msg) ∧
    extract_icon_elements (SvgSource.parsed root) = [] ∧
    fileLines (InputFile.mk name (Except.ok (SvgSource.parsed root))) = [] ∧
    fileError (InputFile.mk name (Except.ok (SvgSource.parsed root))) = true ∧
    (∀ files : List InputFile,
      spriteLines files =
        spriteHeader ::
          (buildLines ((sortFiles files).filter (fun g => !fileError g)) ++ ["</svg>"])) := by
  have hbg : is_background_element e (docViewbox root) =
      Except.error ("ValueError: could not convert string to float") := by
    unfold is_background_element
    rw [if_neg hfill,
      if_neg (fun hc => absurd (hrect.symm.trans hc.1) (by decide)),
      if_pos hrect, hbad]
  have hdrawable : stripNs e.tag ∈ drawable_tags := by
    rw [hrect]
    decide
  have hcol : collectList (docViewbox root) root.children =
      Except.error ("ValueError: could not convert string to float") := by
    rw [hchild, collectList_append (docViewbox root) pre (e :: post), hpre]
    cases e with
    | mk t a cs =>
        have hd : stripNs t ∈ drawable_tags := hdrawable
        simp only [collectList, if_pos hd, hbg, Except.bind, Except.map]
  refine ⟨⟨_, hbg⟩, ?_, ?_, ?_, ?_⟩
  · simp [extract_icon_elements, hcol]
  · have hex : extract_icon_elements (SvgSource.parsed root) = [] := by
      simp [extract_icon_elements, hcol]
    simp [fileLines, hex]
  · simp [fileError, hcol]
  · intro files
    rw [spriteLines,
      buildLines_filter_of_empty (fun g => !fileError g) (sortFiles files)
        (fun g hg => fileError_fileLines g (by simpa using hg))]

def goodPath : Elem := .mk ("path") [("d", "M2 2h4z")] []

def badRect : Elem := .mk ("rect") [("x", "abc"), ("width", "24"), ("height", "24")] []

def mixedRoot : Elem := .mk ("svg") [("viewBox", "0 0 24 24")] [goodPath, badRect]

def goodPathNorm : Elem := .mk ("path") [("d", "M2 2h4z"), ("fill", "currentColor")] []

set_option maxRecDepth 10000 in
theorem bad_rect_attr_aborts_file_witness :
    (∃ msg, is_background_element badRect (docViewbox mixedRoot) = Except.error msg) ∧
    extract_icon_elements (SvgSource.parsed mixedRoot) = [] ∧
    fileLines (InputFile.mk ("mixed.svg") (Except.ok (SvgSource.parsed mixedRoot))) = [] ∧
    fileError (InputFile.mk ("mixed.svg") (Except.ok (SvgSource.parsed mixedRoot))) = true ∧
    spriteLines [InputFile.mk ("mixed.svg") (Except.ok (SvgSource.parsed mixedRoot))] =
      spriteHeader ::
        (buildLines
          ((sortFiles [InputFile.mk ("mixed.svg") (Except.ok (SvgSource.parsed mixedRoot))]).filter
            (fun g => !fileError g)) ++ ["</svg>"]) := by
  have h := bad_rect_attr_aborts_file ("mixed.svg") mixedRoot [goodPath] [] badRect
    [goodPathNorm] (by with_unfolding_all rfl) (by with_unfolding_all rfl)
    (by with_unfolding_all decide) (by with_unfolding_all rfl) (by with_unfolding_all rfl)
  exact ⟨h.1, h.2.1, h.2.2.1, h.2.2.2.1,
    h.2.2.2.2 [InputFile.mk ("mixed.svg") (Except.ok (SvgSource.parsed mixedRoot))]⟩

end IconSprite
